import Mathlib

set_option linter.unusedSectionVars false

/-!
Verification development for the bn254 PLONK verifier
(`internal/backend/bn254/plonk/verify.go`).

Embedding conventions:
* the scalar field `fr` is modelled as `ZMod p` for a prime `p` (bn254 fixes a
  concrete prime modulus; the verifier's algebra is uniform in it);
* bn254 G1 points are modelled as an abstract additive commutative group `G`;
  `ScalarMultiplication` by the canonical unsigned representative produced by
  `ToBigIntRegular` is `(x : ZMod p).val • P`;
* `fr.Element.Div` follows gnark-crypto's convention that the inverse of zero
  is zero, which is also the convention of `ZMod p` (field) division in Lean;
* the kzg opening checks (`kzg.BatchVerifySinglePoint`, `kzg.Verify`) and the
  SHA256 hash are external collaborators and appear as function parameters;
* a Go slice access out of range panics; `Verify` therefore returns an
  `Option`, `none` modelling a panic.
-/

deriving instance DecidableEq for Except

namespace Plonk

/-- ASCII bytes of a label string, as bound into the Fiat-Shamir transcript. -/
def strBytes (s : String) : List Nat := s.toList.map Char.toNat

/-- Modelled from the spec: the fiat-shamir transcript used by `Verify` lives in
gnark-crypto (not under src/).  A challenge slot holds its seeding label, the
bytes bound to it so far, and whether its challenge has been computed
(spec section 4.1: a two-state machine per slot, Open or Finalized). -/
structure Slot where
  label : List Nat
  data : List Nat
  finalized : Bool
deriving DecidableEq

/-- Modelled from the spec: a transcript is an ordered family of labelled
challenge slots together with the collision-resistant hash. -/
structure Transcript where
  hashFn : List Nat → Nat
  slots : List Slot

/-- Modelled from the spec: protocol-misuse failures of the transcript
(binding to an undeclared slot, or touching a slot after it is finalized). -/
inductive FSError
  | challengeNotFound
  | challengeAlreadyComputed
deriving DecidableEq

/-- Modelled from the spec: `fiatshamir.NewTranscript` seeds one empty open
slot per declared challenge label, in order. -/
def NewTranscript (h : List Nat → Nat) (labels : List (List Nat)) : Transcript :=
  ⟨h, labels.map fun l => ⟨l, [], false⟩⟩

/-- Modelled from the spec: append bytes to the slot with the given label;
fails when the label is undeclared or the slot is already finalized. -/
def bindSlots : List Slot → List Nat → List Nat → Except FSError (List Slot)
  | [], _, _ => .error .challengeNotFound
  | s :: rest, name, bytes =>
    if s.label = name then
      if s.finalized then .error .challengeAlreadyComputed
      else .ok ({ s with data := s.data ++ bytes } :: rest)
    else do
      let rest2 ← bindSlots rest name bytes
      return (s :: rest2)

/-- Modelled from the spec: `Transcript.Bind`. -/
def fsBind (t : Transcript) (name bytes : List Nat) : Except FSError Transcript := do
  let s ← bindSlots t.slots name bytes
  return { t with slots := s }

/-- Modelled from the spec: the accumulated state chains forward; slot `i`
contributes its label, then the accumulated state of the slots before it,
then its own bound data, and the challenge is the hash of that state. -/
def computeSlots (h : List Nat → Nat) :
    List Slot → List Nat → List Nat → Except FSError (Nat × List Slot)
  | [], _, _ => .error .challengeNotFound
  | s :: rest, name, acc =>
    if s.label = name then
      if s.finalized then .error .challengeAlreadyComputed
      else .ok (h (s.label ++ acc ++ s.data), { s with finalized := true } :: rest)
    else do
      let vr ← computeSlots h rest name (s.label ++ acc ++ s.data)
      return (vr.1, s :: vr.2)

/-- Modelled from the spec: `Transcript.ComputeChallenge`, finalizing the slot. -/
def fsComputeChallenge (t : Transcript) (name : List Nat) :
    Except FSError (Nat × Transcript) := do
  let vs ← computeSlots t.hashFn t.slots name []
  return (vs.1, { t with slots := vs.2 })

/-- Modelled from the spec: the batched kzg opening proof
(`kzg.BatchOpeningProof`, declared in gnark-crypto, not under src/): a kzg
witness commitment and the list of claimed evaluations. -/
structure BatchOpeningProof (p : Nat) (G : Type) where
  H : G
  ClaimedValues : List (ZMod p)

/-- Modelled from the spec: a single-point kzg opening proof
(`kzg.OpeningProof`): a kzg witness commitment and one claimed evaluation. -/
structure OpeningProof (p : Nat) (G : Type) where
  H : G
  ClaimedValue : ZMod p

/-- Modelled from the spec: the PLONK `Proof` (its Go declaration is not under
src/): wire commitments L, R, O, the permutation commitment Z, the three
quotient-part commitments, the batched opening proof and the shifted opening
proof. -/
structure Proof (p : Nat) (G : Type) where
  LRO : Fin 3 → G
  Z : G
  H : Fin 3 → G
  BatchedProof : BatchOpeningProof p G
  ZShiftedOpening : OpeningProof p G

/-- Modelled from the spec: the `VerifyingKey` (its Go declaration is not under
src/): domain size and its inverse, the domain generator, selector and
permutation commitments, coset shifters and the kzg SRS reference. -/
structure VerifyingKey (p : Nat) (G : Type) (Srs : Type) where
  Size : Nat
  SizeInv : ZMod p
  Generator : ZMod p
  S : Fin 3 → G
  Ql : G
  Qr : G
  Qm : G
  Qo : G
  Qk : G
  Shifter : Fin 2 → ZMod p
  KZGSRS : Srs

variable (p : Nat) [Fact p.Prime] {G : Type} [AddCommGroup G] {E Srs : Type}

/-- Challenge derivation of `Verify` (verify.go lines 36-86): bind the byte
encodings of Comm(L), Comm(R), Comm(O) to slot "gamma", compute gamma; bind
Comm(Z) to slot "alpha", compute alpha; bind Comm(H0), Comm(H1), Comm(H2) to
slot "zeta", compute zeta.  Each digest is turned into a field element by
`fr.Element.SetBytes`, i.e. reduction of the digest modulo the field order,
modelled by the natural-number cast into `ZMod p`. -/
def deriveChallenges (hash : List Nat → Nat) (marshal : G → List Nat)
    (proof : Proof p G) : Except FSError (ZMod p × ZMod p × ZMod p) := do
  let fs := NewTranscript hash [strBytes "gamma", strBytes "alpha", strBytes "zeta"]
  let fs ← fsBind fs (strBytes "gamma") (marshal (proof.LRO 0))
  let fs ← fsBind fs (strBytes "gamma") (marshal (proof.LRO 1))
  let fs ← fsBind fs (strBytes "gamma") (marshal (proof.LRO 2))
  let gfs ← fsComputeChallenge fs (strBytes "gamma")
  let gamma : ZMod p := (gfs.1 : ZMod p)
  let fs ← fsBind gfs.2 (strBytes "alpha") (marshal proof.Z)
  let afs ← fsComputeChallenge fs (strBytes "alpha")
  let alpha : ZMod p := (afs.1 : ZMod p)
  let fs ← fsBind afs.2 (strBytes "zeta") (marshal (proof.H 0))
  let fs ← fsBind fs (strBytes "zeta") (marshal (proof.H 1))
  let fs ← fsBind fs (strBytes "zeta") (marshal (proof.H 2))
  let zfs ← fsComputeChallenge fs (strBytes "zeta")
  return (gamma, alpha, (zfs.1 : ZMod p))

/-- Accumulated transcript state hashed for gamma:
"gamma" followed by the encodings of Comm(L), Comm(R), Comm(O). -/
def gammaState (marshal : G → List Nat) (proof : Proof p G) : List Nat :=
  strBytes "gamma" ++
    ((marshal (proof.LRO 0) ++ marshal (proof.LRO 1)) ++ marshal (proof.LRO 2))

/-- Accumulated transcript state hashed for alpha:
"alpha", then gamma's accumulated state, then the encoding of Comm(Z). -/
def alphaState (marshal : G → List Nat) (proof : Proof p G) : List Nat :=
  strBytes "alpha" ++ (gammaState p marshal proof ++ marshal proof.Z)

/-- Accumulated transcript state hashed for zeta: "zeta", then alpha's
accumulated state, then the encodings of Comm(H0), Comm(H1), Comm(H2). -/
def zetaState (marshal : G → List Nat) (proof : Proof p G) : List Nat :=
  strBytes "zeta" ++ (alphaState p marshal proof ++
    ((marshal (proof.H 0) ++ marshal (proof.H 1)) ++ marshal (proof.H 2)))

/-- gnark-crypto `fr.Element.Inverse`: the modular inverse, with the documented
convention that the inverse of zero is zero.  Written as a Fermat power so the
kernel can evaluate it on concrete inputs; `frInv_eq` identifies it with the
field inverse of `ZMod p`. -/
def frInv (x : ZMod p) : ZMod p :=
  if x = 0 then 0 else x ^ (p - 2)

/-- gnark-crypto `fr.Element.Div`: multiplication by the inverse. -/
def frDiv (a b : ZMod p) : ZMod p := a * frInv p b

/-- Loop body of the public-input aggregation (verify.go lines 104-115).
State: the accumulator `pi`, the current Lagrange value `lagrange`, the current
domain point `acc` and the current denominator `den = zeta - acc`.  Each step
accumulates `pi += lagrange * w_i` and advances the basis via
`L_{i+1} = L_i * g * (zeta - g^i) / (zeta - g^{i+1})`. -/
def piFold (g zeta : ZMod p) :
    List (ZMod p) → ZMod p → ZMod p → ZMod p → ZMod p → ZMod p
  | [], pi, _, _, _ => pi
  | w :: ws, pi, lagrange, acc, den =>
    let pi2 := pi + lagrange * w
    let lagrange2 := lagrange * g * den
    let acc2 := acc * g
    let den2 := zeta - acc2
    piFold g zeta ws pi2 (frDiv p lagrange2 den2) acc2 den2

/-- Public-input aggregation (verify.go lines 96-115): seeds
`lagrange = (zeta^n - 1) / (zeta - 1) * (1/n)` (the value `zzeta = zeta^n - 1`
is computed by the caller at lines 88-94), runs the loop over the public
witness, and also returns the saved `lagrangeOne = L_0(zeta)`. -/
def computePI (vk : VerifyingKey p G Srs) (zeta zzeta : ZMod p)
    (publicWitness : List (ZMod p)) : ZMod p × ZMod p :=
  let den := zeta - 1
  let lagrange := frDiv p zzeta den * vk.SizeInv
  (piFold p vk.Generator zeta publicWitness 0 lagrange 1 den, lagrange)

/-- Scalar quotient value recomputed by `Verify` (verify.go lines 117-148):
`(linearizedPolynomialZeta + pi + (l+s1+gamma)(r+s2+gamma)(o+gamma)*alpha*zu
  - lagrangeOne*alpha*alpha) / (zeta^n - 1)`. -/
def expectedQuotientCode (n : Nat)
    (gamma alpha zeta pi lagrangeOne zu linPolZeta l r o s1 s2 : ZMod p) : ZMod p :=
  frDiv p (linPolZeta + pi + (l + s1 + gamma) * (r + s2 + gamma) * (o + gamma) * alpha * zu
      - lagrangeOne * alpha * alpha) (zeta ^ n - 1)

/-- Folded quotient commitment (verify.go lines 155-165): with
`b` the canonical representative of `zeta^(n+2)`,
`foldedH = b • (b • H[2] + H[1]) + H[0]`. -/
def foldedHCommit (proof : Proof p G) (vk : VerifyingKey p G Srs)
    (zeta : ZMod p) : G :=
  (zeta ^ (vk.Size + 2)).val • ((zeta ^ (vk.Size + 2)).val • proof.H 2 + proof.H 1)
    + proof.H 0

/-- Commitment to the linearized polynomial (verify.go lines 167-220):
the selector part `l•Ql + r•Qr + (l*r)•Qm + o•Qo + Qk`, plus the permutation
part `[(l+s1+gamma)(r+s2+gamma)*zu*alpha]•S[2]
 - [(zeta*sh1+o+gamma)((zeta*sh0+r+gamma)(l+zeta+gamma))*alpha]•Z`,
plus `alphaSquareLagrange•Z`; every scalar acts through its canonical
representative (`ToBigIntRegular`). -/
def linearizedPolynomialDigest (proof : Proof p G) (vk : VerifyingKey p G Srs)
    (gamma alpha zeta zu l r o s1 s2 alphaSquareLagrange : ZMod p) : G :=
  ((ZMod.val l • vk.Ql + ZMod.val r • vk.Qr + ZMod.val (l * r) • vk.Qm
      + ZMod.val o • vk.Qo + vk.Qk)
    + (ZMod.val ((l + s1 + gamma) * (r + s2 + gamma) * zu * alpha) • vk.S 2
      - ZMod.val ((zeta * vk.Shifter 1 + o + gamma)
          * ((zeta * vk.Shifter 0 + r + gamma) * (l + zeta + gamma)) * alpha) • proof.Z))
    + ZMod.val alphaSquareLagrange • proof.Z

/-- Outcomes of `Verify`: a transcript error propagated from fiat-shamir, the
`errWrongClaimedQuotient` sentinel, or an error propagated from a kzg opening
check. -/
inductive VerifyError (E : Type)
  | transcriptErr (e : FSError)
  | quotientMismatch
  | opening (e : E)
deriving DecidableEq

/-- The verifier (verify.go lines 33-241).  `hash` and `marshal` stand for
SHA256 and the curve-point byte encoding; `batchVerify` and `kzgVerify` are
the external kzg opening checks `kzg.BatchVerifySinglePoint` and `kzg.Verify`.
The result is `none` when the Go code panics (a claimed-values slice access
out of range), otherwise `some` of the returned outcome. -/
def Verify (hash : List Nat → Nat) (marshal : G → List Nat)
    (batchVerify : List G → BatchOpeningProof p G → Srs → Except E Unit)
    (kzgVerify : G → OpeningProof p G → Srs → Except E Unit)
    (proof : Proof p G) (vk : VerifyingKey p G Srs)
    (publicWitness : List (ZMod p)) : Option (Except (VerifyError E) Unit) :=
  match deriveChallenges p hash marshal proof with
  | .error e => some (.error (.transcriptErr e))
  | .ok (gamma, alpha, zeta) =>
    -- evaluation of Z = X^m - 1 at zeta, then PI = sum_i L_i w_i
    let pl := computePI p vk zeta (zeta ^ vk.Size - 1) publicWitness
    let zu := proof.ZShiftedOpening.ClaimedValue
    match proof.BatchedProof.ClaimedValues[0]?, proof.BatchedProof.ClaimedValues[1]?,
      proof.BatchedProof.ClaimedValues[2]?, proof.BatchedProof.ClaimedValues[3]?,
      proof.BatchedProof.ClaimedValues[4]?, proof.BatchedProof.ClaimedValues[5]?,
      proof.BatchedProof.ClaimedValues[6]? with
    | some claimedQuotient, some linPolZeta, some l, some r, some o, some s1, some s2 =>
      -- check that H(zeta) is as claimed
      if claimedQuotient
          = expectedQuotientCode p vk.Size gamma alpha zeta pl.1 pl.2 zu linPolZeta l r o s1 s2 then
        -- fold H, compute the linearized-polynomial digest, open
        match batchVerify
            [foldedHCommit p proof vk zeta,
             linearizedPolynomialDigest p proof vk gamma alpha zeta zu l r o s1 s2
               (pl.2 * alpha * alpha),
             proof.LRO 0, proof.LRO 1, proof.LRO 2, vk.S 0, vk.S 1]
            proof.BatchedProof vk.KZGSRS with
        | .error e => some (.error (.opening e))
        | .ok _ =>
          match kzgVerify proof.Z proof.ZShiftedOpening vk.KZGSRS with
          | .error e => some (.error (.opening e))
          | .ok _ => some (.ok ())
      else some (.error .quotientMismatch)
    | _, _, _, _, _, _, _ => none

/-- The verifier together with the final state of the two input structures.
verify.go never assigns through the `proof` or `vk` pointers: every mutated
receiver (`foldedH := proof.H[2]`, `linearizedPolynomialDigest := vk.Ql`,
`tmp`, `s3Commit`, `secondPart`, `thirdPart` and all `fr.Element` locals) is a
Go value copy, so the post-call state of both structures is their input state. -/
def VerifyFull (hash : List Nat → Nat) (marshal : G → List Nat)
    (batchVerify : List G → BatchOpeningProof p G → Srs → Except E Unit)
    (kzgVerify : G → OpeningProof p G → Srs → Except E Unit)
    (proof : Proof p G) (vk : VerifyingKey p G Srs)
    (publicWitness : List (ZMod p)) :
    Option (Except (VerifyError E) Unit) × Proof p G × VerifyingKey p G Srs :=
  (Verify p hash marshal batchVerify kzgVerify proof vk publicWitness, proof, vk)

/-- Joint outcome of the two kzg opening checks with early return on the first
failure, exactly as `Verify` wraps them. -/
def openOutcome (x y : Except E Unit) : Option (Except (VerifyError E) Unit) :=
  match x with
  | .error e => some (.error (.opening e))
  | .ok _ => match y with
    | .error e => some (.error (.opening e))
    | .ok _ => some (.ok ())

/-- Spec-side scalar check (spec section 4.3, claim order):
`expected = (linearizedPoly + PI(zeta) + alpha*zu*(a+s1+gamma)*(b+s2+gamma)*(c+gamma)
 - alpha^2*L0(zeta)) / (zeta^n - 1)`. -/
def expectedQuotientSpec (n : Nat)
    (gamma alpha zeta pi lagrangeOne zu linPolZeta l r o s1 s2 : ZMod p) : ZMod p :=
  (linPolZeta + pi + alpha * zu * (l + s1 + gamma) * (r + s2 + gamma) * (o + gamma)
      - alpha ^ 2 * lagrangeOne) / (zeta ^ n - 1)

/-- Spec-side closed form of the i-th Lagrange basis polynomial of the size-n
roots-of-unity domain, evaluated at zeta:
`L_i(zeta) = g^i * (1/n) * (zeta^n - 1) / (zeta - g^i)`. -/
def lagrangeClosed (vk : VerifyingKey p G Srs) (zeta : ZMod p) (i : Nat) : ZMod p :=
  vk.Generator ^ i * ((vk.Size : ZMod p))⁻¹ * (zeta ^ vk.Size - 1)
    / (zeta - vk.Generator ^ i)

/-- Spec-side direct closed-form public-input evaluation
`PI(zeta) = sum_i w_i * L_i(zeta)`. -/
def PIdirect (vk : VerifyingKey p G Srs) (zeta : ZMod p) (w : List (ZMod p)) : ZMod p :=
  ∑ i ∈ Finset.range w.length, w.getD i 0 * lagrangeClosed p vk zeta i

/-- Spec-side Horner fold of a commitment list with scalar multiplier `m`:
folding `[H2, H1, H0]` gives `(H2*m + H1)*m + H0`. -/
def hornerFold (m : Nat) (l : List G) : G :=
  l.foldl (fun acc h => m • acc + h) 0

/-- Spec-side linearized-polynomial digest (spec section 4.3, claim order):
`l*Ql + r*Qr + (l*r)*Qm + o*Qo + Qk
 + [alpha*zu*(a+s1+gamma)*(b+s2+gamma)]*S[2]
 - [alpha*(a+zeta+gamma)*(b+shift0*zeta+gamma)*(c+shift1*zeta+gamma)]*Z
 + [alpha^2*L0(zeta)]*Z`, scalars acting through canonical representatives. -/
def linearizedDigestSpec (proof : Proof p G) (vk : VerifyingKey p G Srs)
    (gamma alpha zeta zu l r o s1 s2 lagrangeOne : ZMod p) : G :=
  ZMod.val l • vk.Ql + ZMod.val r • vk.Qr + ZMod.val (l * r) • vk.Qm
    + ZMod.val o • vk.Qo + vk.Qk
    + ZMod.val (alpha * zu * (l + s1 + gamma) * (r + s2 + gamma)) • vk.S 2
    - ZMod.val (alpha * (l + zeta + gamma) * (r + vk.Shifter 0 * zeta + gamma)
        * (o + vk.Shifter 1 * zeta + gamma)) • proof.Z
    + ZMod.val (alpha ^ 2 * lagrangeOne) • proof.Z

/-! Concrete data used to witness the theorems below: the field `ZMod 5`, the
group `ZMod 5` (any additive commutative group works), trivial SRS and a
one-constructor kzg error type. -/

instance fact_prime_5 : Fact (Nat.Prime 5) := ⟨by norm_num⟩

/-- A small verifying key over `ZMod 5`: domain size 2 with generator 4
(a primitive square root of unity mod 5) and `SizeInv = 3 = 2⁻¹`. -/
def wVK : VerifyingKey 5 (ZMod 5) Unit where
  Size := 2
  SizeInv := 3
  Generator := 4
  S := ![1, 2, 3]
  Ql := 1
  Qr := 2
  Qm := 3
  Qo := 4
  Qk := 0
  Shifter := ![2, 3]
  KZGSRS := ()

/-- A proof whose claimed quotient (1) differs from the recomputed value (4). -/
def wProofBad : Proof 5 (ZMod 5) where
  LRO := ![1, 2, 3]
  Z := 1
  H := ![1, 1, 1]
  BatchedProof := ⟨0, [1, 0, 1, 2, 3, 4, 0]⟩
  ZShiftedOpening := ⟨0, 2⟩

/-- A proof whose claimed quotient (4) equals the recomputed value under the
constant hash 3 and public witness `[1, 2]`. -/
def wProofOk : Proof 5 (ZMod 5) where
  LRO := ![1, 2, 3]
  Z := 1
  H := ![1, 1, 1]
  BatchedProof := ⟨0, [4, 0, 1, 2, 3, 4, 0]⟩
  ZShiftedOpening := ⟨0, 2⟩

/-- A proof whose claimed-values slice has only three entries, so that the
verifier's fixed-index reads run out of bounds. -/
def wProofShort : Proof 5 (ZMod 5) where
  LRO := ![1, 2, 3]
  Z := 1
  H := ![1, 1, 1]
  BatchedProof := ⟨0, [1, 2, 3]⟩
  ZShiftedOpening := ⟨0, 2⟩

/-- Constant hash whose digest 3 yields the challenges (3, 3, 3). -/
def wHash : List Nat → Nat := fun _ => 3

/-- Constant hash whose digest 1 yields the challenges (1, 1, 1); the zeta it
produces equals the domain point `g^0 = 1`. -/
def cHash : List Nat → Nat := fun _ => 1

/-- Trivial byte encoding used by the witnesses. -/
def wMarshal : ZMod 5 → List Nat := fun _ => []

/-- Opening-check oracle that accepts. -/
def okOracleB : List (ZMod 5) → BatchOpeningProof 5 (ZMod 5) → Unit → Except Unit Unit :=
  fun _ _ _ => .ok ()

/-- Single-opening oracle that accepts. -/
def okOracleS : ZMod 5 → OpeningProof 5 (ZMod 5) → Unit → Except Unit Unit :=
  fun _ _ _ => .ok ()

/-- Opening-check oracle that rejects. -/
def badOracleB : List (ZMod 5) → BatchOpeningProof 5 (ZMod 5) → Unit → Except Unit Unit :=
  fun _ _ _ => .error ()

/-! Theorems. -/

theorem frInv_eq (x : ZMod p) : frInv p x = x⁻¹ := by
  rcases eq_or_ne x 0 with h | h
  · simp [frInv, h]
  · have hpow : x ^ (p - 1) = 1 := ZMod.pow_card_sub_one_eq_one h
    have h2 : 2 ≤ p := (Fact.out : p.Prime).two_le
    have hmul : x ^ (p - 2) * x = 1 := by
      rw [← pow_succ]
      have hpp : p - 2 + 1 = p - 1 := by omega
      rw [hpp, hpow]
    rw [frInv, if_neg h]
    exact eq_inv_of_mul_eq_one_left hmul

theorem frDiv_eq (a b : ZMod p) : frDiv p a b = a / b := by
  rw [frDiv, frInv_eq, div_eq_mul_inv]

/-- Closed form of the challenge derivation: it never fails, and each
challenge is the reduction mod p of the hash of the chained transcript state. -/
theorem deriveChallenges_eq (hash : List Nat → Nat) (marshal : G → List Nat)
    (proof : Proof p G) :
    deriveChallenges p hash marshal proof =
      .ok ((hash (gammaState p marshal proof) : ZMod p),
           (hash (alphaState p marshal proof) : ZMod p),
           (hash (zetaState p marshal proof) : ZMod p)) := rfl

theorem openOutcome_ne_qm (x y : Except E Unit) :
    openOutcome (E := E) x y ≠ some (.error .quotientMismatch) := by
  rcases x with e | u
  · simp [openOutcome]
  · rcases y with e | u <;> simp [openOutcome]

theorem openOutcome_ne_none (x y : Except E Unit) :
    openOutcome (E := E) x y ≠ none := by
  rcases x with e | u
  · simp [openOutcome]
  · rcases y with e | u <;> simp [openOutcome]

theorem openOutcome_eq_ok_iff (x y : Except E Unit) :
    openOutcome (E := E) x y = some (.ok ()) ↔ x = .ok () ∧ y = .ok () := by
  rcases x with e | u
  · simp [openOutcome]
  · rcases y with e | v
    · simp [openOutcome]
    · simp [openOutcome]

/-- Unfolding of `Verify` once the challenges are known and the claimed-values
list has at least seven entries: the seven fixed-order reads reduce, leaving
the quotient gate followed by the two opening checks. -/
theorem Verify_unfold (hash : List Nat → Nat) (marshal : G → List Nat)
    (bV : List G → BatchOpeningProof p G → Srs → Except E Unit)
    (sV : G → OpeningProof p G → Srs → Except E Unit)
    (proof : Proof p G) (vk : VerifyingKey p G Srs) (w : List (ZMod p))
    (gamma alpha zeta : ZMod p) (q lp l r o s1 s2 : ZMod p) (rest : List (ZMod p))
    (hd : deriveChallenges p hash marshal proof = .ok (gamma, alpha, zeta))
    (hcv : proof.BatchedProof.ClaimedValues = q :: lp :: l :: r :: o :: s1 :: s2 :: rest) :
    Verify p hash marshal bV sV proof vk w =
      (if q = expectedQuotientCode p vk.Size gamma alpha zeta
                (computePI p vk zeta (zeta ^ vk.Size - 1) w).1
                (computePI p vk zeta (zeta ^ vk.Size - 1) w).2
                proof.ZShiftedOpening.ClaimedValue lp l r o s1 s2
        then openOutcome
              (bV [foldedHCommit p proof vk zeta,
                   linearizedPolynomialDigest p proof vk gamma alpha zeta
                     proof.ZShiftedOpening.ClaimedValue l r o s1 s2
                     ((computePI p vk zeta (zeta ^ vk.Size - 1) w).2 * alpha * alpha),
                   proof.LRO 0, proof.LRO 1, proof.LRO 2, vk.S 0, vk.S 1]
                  proof.BatchedProof vk.KZGSRS)
              (sV proof.Z proof.ZShiftedOpening vk.KZGSRS)
        else some (.error .quotientMismatch)) := by
  simp only [Verify, hd, hcv, List.getElem?_cons_zero, List.getElem?_cons_succ, openOutcome]

/-- Invariant of the public-input loop: started at domain index i with the
closed-form Lagrange value, it adds the closed-form partial sum, provided
zeta avoids the domain points consumed by the loop. -/
theorem piFold_closed (g zeta c : ZMod p) :
    ∀ (ws : List (ZMod p)) (i : Nat) (pi : ZMod p),
      (∀ j, j < ws.length → zeta ≠ g ^ (i + j)) →
      piFold p g zeta ws pi (c * g ^ i / (zeta - g ^ i)) (g ^ i) (zeta - g ^ i)
        = pi + ∑ j ∈ Finset.range ws.length,
            ws.getD j 0 * (c * g ^ (i + j) / (zeta - g ^ (i + j)))
  | [], i, pi, _ => by simp [piFold]
  | w :: ws, i, pi, h => by
    have hne : zeta ≠ g ^ i := by simpa using h 0 (by simp)
    have h0 : zeta - g ^ i ≠ 0 := sub_ne_zero.mpr hne
    have hstep : c * g ^ i / (zeta - g ^ i) * g * (zeta - g ^ i) = c * g ^ (i + 1) := by
      field_simp
      ring
    have h2 : ∀ j, j < ws.length → zeta ≠ g ^ (i + 1 + j) := by
      intro j hj
      have := h (j + 1) (by simpa using hj)
      simpa [show i + (j + 1) = i + 1 + j by omega] using this
    simp only [piFold]
    rw [frDiv_eq, ← pow_succ, hstep]
    rw [piFold_closed g zeta c ws (i + 1) (pi + c * g ^ i / (zeta - g ^ i) * w) h2]
    simp only [List.length_cons]
    rw [Finset.sum_range_succ']
    simp only [List.getD_cons_succ, List.getD_cons_zero]
    have hsum : ∑ j ∈ Finset.range ws.length,
          ws.getD j 0 * (c * g ^ (i + 1 + j) / (zeta - g ^ (i + 1 + j)))
        = ∑ j ∈ Finset.range ws.length,
          ws.getD j 0 * (c * g ^ (i + (j + 1)) / (zeta - g ^ (i + (j + 1)))) := by
      refine Finset.sum_congr rfl fun j _ => ?_
      rw [show i + 1 + j = i + (j + 1) by omega]
    rw [hsum]
    ring

/-- C1: from the claimed evaluations read in the fixed order quotient,
linearizedPoly, a, b, c, s1, s2, the quotient recomputed by `Verify` equals
the spec formula, and `Verify` returns the quotient-mismatch error exactly
when the claimed quotient differs from it. -/
theorem C1_verify_quotient_check (hash : List Nat → Nat) (marshal : G → List Nat)
    (bV : List G → BatchOpeningProof p G → Srs → Except E Unit)
    (sV : G → OpeningProof p G → Srs → Except E Unit)
    (proof : Proof p G) (vk : VerifyingKey p G Srs) (w : List (ZMod p))
    (gamma alpha zeta q lp l r o s1 s2 : ZMod p) (rest : List (ZMod p))
    (hd : deriveChallenges p hash marshal proof = .ok (gamma, alpha, zeta))
    (hcv : proof.BatchedProof.ClaimedValues = q :: lp :: l :: r :: o :: s1 :: s2 :: rest) :
    expectedQuotientCode p vk.Size gamma alpha zeta
        (computePI p vk zeta (zeta ^ vk.Size - 1) w).1
        (computePI p vk zeta (zeta ^ vk.Size - 1) w).2
        proof.ZShiftedOpening.ClaimedValue lp l r o s1 s2
      = expectedQuotientSpec p vk.Size gamma alpha zeta
          (computePI p vk zeta (zeta ^ vk.Size - 1) w).1
          (computePI p vk zeta (zeta ^ vk.Size - 1) w).2
          proof.ZShiftedOpening.ClaimedValue lp l r o s1 s2
    ∧ (Verify p hash marshal bV sV proof vk w = some (.error .quotientMismatch)
        ↔ q ≠ expectedQuotientSpec p vk.Size gamma alpha zeta
            (computePI p vk zeta (zeta ^ vk.Size - 1) w).1
            (computePI p vk zeta (zeta ^ vk.Size - 1) w).2
            proof.ZShiftedOpening.ClaimedValue lp l r o s1 s2) := by
  have he : ∀ pi lag : ZMod p,
      expectedQuotientCode p vk.Size gamma alpha zeta pi lag
          proof.ZShiftedOpening.ClaimedValue lp l r o s1 s2
        = expectedQuotientSpec p vk.Size gamma alpha zeta pi lag
          proof.ZShiftedOpening.ClaimedValue lp l r o s1 s2 := by
    intro pi lag
    simp only [expectedQuotientCode, expectedQuotientSpec, frDiv_eq]
    congr 1
    ring
  refine ⟨he _ _, ?_⟩
  rw [Verify_unfold p hash marshal bV sV proof vk w gamma alpha zeta q lp l r o s1 s2
    rest hd hcv, he]
  rcases eq_or_ne q (expectedQuotientSpec p vk.Size gamma alpha zeta
      (computePI p vk zeta (zeta ^ vk.Size - 1) w).1
      (computePI p vk zeta (zeta ^ vk.Size - 1) w).2
      proof.ZShiftedOpening.ClaimedValue lp l r o s1 s2) with hq | hq
  · simp [if_pos hq, hq, openOutcome_ne_qm]
  · simp [if_neg hq, hq]

/-- C2 (amended): when zeta makes the vanishing divisor zeta^n - 1 zero (in
particular when zeta is a domain point), `Verify` performs no division-by-zero
detection: gnark-crypto division treats the inverse of zero as zero, the
recomputed quotient collapses to 0, and `Verify` returns the ordinary
pass/fail outcome - quotient mismatch exactly when the claimed quotient is
nonzero - never a dedicated division-by-zero error (none exists in the code). -/
theorem C2_domain_collision_silent (hash : List Nat → Nat) (marshal : G → List Nat)
    (bV : List G → BatchOpeningProof p G → Srs → Except E Unit)
    (sV : G → OpeningProof p G → Srs → Except E Unit)
    (proof : Proof p G) (vk : VerifyingKey p G Srs) (w : List (ZMod p))
    (gamma alpha zeta q lp l r o s1 s2 : ZMod p) (rest : List (ZMod p))
    (hd : deriveChallenges p hash marshal proof = .ok (gamma, alpha, zeta))
    (hcv : proof.BatchedProof.ClaimedValues = q :: lp :: l :: r :: o :: s1 :: s2 :: rest)
    (hzeta : zeta ^ vk.Size = 1) :
    Verify p hash marshal bV sV proof vk w = some (.error .quotientMismatch) ↔ q ≠ 0 := by
  have h0 : expectedQuotientCode p vk.Size gamma alpha zeta
      (computePI p vk zeta (zeta ^ vk.Size - 1) w).1
      (computePI p vk zeta (zeta ^ vk.Size - 1) w).2
      proof.ZShiftedOpening.ClaimedValue lp l r o s1 s2 = 0 := by
    simp only [expectedQuotientCode]
    rw [frDiv_eq, hzeta, sub_self, div_zero]
  rw [Verify_unfold p hash marshal bV sV proof vk w gamma alpha zeta q lp l r o s1 s2
    rest hd hcv, h0]
  rcases eq_or_ne q 0 with hq | hq
  · simp [if_pos hq, hq, openOutcome_ne_qm]
  · simp [if_neg hq, hq]

/-- C7: `Verify` succeeds if and only if the scalar quotient check, the
batched opening check and the single shifted-opening check all succeed, and
the first failing stage's specific error is returned with the later stages
never consulted. -/
theorem C7_stage_outcomes (hash : List Nat → Nat) (marshal : G → List Nat)
    (bV : List G → BatchOpeningProof p G → Srs → Except E Unit)
    (sV : G → OpeningProof p G → Srs → Except E Unit)
    (proof : Proof p G) (vk : VerifyingKey p G Srs) (w : List (ZMod p))
    (gamma alpha zeta q lp l r o s1 s2 : ZMod p) (rest : List (ZMod p))
    (hd : deriveChallenges p hash marshal proof = .ok (gamma, alpha, zeta))
    (hcv : proof.BatchedProof.ClaimedValues = q :: lp :: l :: r :: o :: s1 :: s2 :: rest) :
    (Verify p hash marshal bV sV proof vk w = some (.ok ())
      ↔ q = expectedQuotientCode p vk.Size gamma alpha zeta
              (computePI p vk zeta (zeta ^ vk.Size - 1) w).1
              (computePI p vk zeta (zeta ^ vk.Size - 1) w).2
              proof.ZShiftedOpening.ClaimedValue lp l r o s1 s2
          ∧ bV [foldedHCommit p proof vk zeta,
                linearizedPolynomialDigest p proof vk gamma alpha zeta
                  proof.ZShiftedOpening.ClaimedValue l r o s1 s2
                  ((computePI p vk zeta (zeta ^ vk.Size - 1) w).2 * alpha * alpha),
                proof.LRO 0, proof.LRO 1, proof.LRO 2, vk.S 0, vk.S 1]
               proof.BatchedProof vk.KZGSRS = .ok ()
          ∧ sV proof.Z proof.ZShiftedOpening vk.KZGSRS = .ok ())
    ∧ (q ≠ expectedQuotientCode p vk.Size gamma alpha zeta
            (computePI p vk zeta (zeta ^ vk.Size - 1) w).1
            (computePI p vk zeta (zeta ^ vk.Size - 1) w).2
            proof.ZShiftedOpening.ClaimedValue lp l r o s1 s2
        → Verify p hash marshal bV sV proof vk w = some (.error .quotientMismatch))
    ∧ (∀ e, q = expectedQuotientCode p vk.Size gamma alpha zeta
              (computePI p vk zeta (zeta ^ vk.Size - 1) w).1
              (computePI p vk zeta (zeta ^ vk.Size - 1) w).2
              proof.ZShiftedOpening.ClaimedValue lp l r o s1 s2
        → bV [foldedHCommit p proof vk zeta,
              linearizedPolynomialDigest p proof vk gamma alpha zeta
                proof.ZShiftedOpening.ClaimedValue l r o s1 s2
                ((computePI p vk zeta (zeta ^ vk.Size - 1) w).2 * alpha * alpha),
              proof.LRO 0, proof.LRO 1, proof.LRO 2, vk.S 0, vk.S 1]
             proof.BatchedProof vk.KZGSRS = .error e
        → Verify p hash marshal bV sV proof vk w = some (.error (.opening e)))
    ∧ (∀ e, q = expectedQuotientCode p vk.Size gamma alpha zeta
              (computePI p vk zeta (zeta ^ vk.Size - 1) w).1
              (computePI p vk zeta (zeta ^ vk.Size - 1) w).2
              proof.ZShiftedOpening.ClaimedValue lp l r o s1 s2
        → bV [foldedHCommit p proof vk zeta,
              linearizedPolynomialDigest p proof vk gamma alpha zeta
                proof.ZShiftedOpening.ClaimedValue l r o s1 s2
                ((computePI p vk zeta (zeta ^ vk.Size - 1) w).2 * alpha * alpha),
              proof.LRO 0, proof.LRO 1, proof.LRO 2, vk.S 0, vk.S 1]
             proof.BatchedProof vk.KZGSRS = .ok ()
        → sV proof.Z proof.ZShiftedOpening vk.KZGSRS = .error e
        → Verify p hash marshal bV sV proof vk w = some (.error (.opening e))) := by
  rw [Verify_unfold p hash marshal bV sV proof vk w gamma alpha zeta q lp l r o s1 s2
    rest hd hcv]
  refine ⟨?_, ?_, ?_, ?_⟩
  · rcases eq_or_ne q (expectedQuotientCode p vk.Size gamma alpha zeta
        (computePI p vk zeta (zeta ^ vk.Size - 1) w).1
        (computePI p vk zeta (zeta ^ vk.Size - 1) w).2
        proof.ZShiftedOpening.ClaimedValue lp l r o s1 s2) with hq | hq
    · simp [if_pos hq, hq, openOutcome_eq_ok_iff]
    · simp [if_neg hq, hq]
  · intro hq
    simp [if_neg hq]
  · intro e hq hb
    simp [if_pos hq, openOutcome, hb]
  · intro e hq hb hs
    simp [if_pos hq, openOutcome, hb, hs]

/-- C8: once the quotient gate passes, `Verify` invokes the batched opening
check with exactly the seven commitments foldedH, linearized digest, L, R, O,
S0, S1 in that order together with the batched proof and the SRS, then the
single opening check on Z with the shifted opening proof. -/
theorem C8_opening_calls (hash : List Nat → Nat) (marshal : G → List Nat)
    (bV : List G → BatchOpeningProof p G → Srs → Except E Unit)
    (sV : G → OpeningProof p G → Srs → Except E Unit)
    (proof : Proof p G) (vk : VerifyingKey p G Srs) (w : List (ZMod p))
    (gamma alpha zeta q lp l r o s1 s2 : ZMod p) (rest : List (ZMod p))
    (hd : deriveChallenges p hash marshal proof = .ok (gamma, alpha, zeta))
    (hcv : proof.BatchedProof.ClaimedValues = q :: lp :: l :: r :: o :: s1 :: s2 :: rest)
    (hq : q = expectedQuotientCode p vk.Size gamma alpha zeta
        (computePI p vk zeta (zeta ^ vk.Size - 1) w).1
        (computePI p vk zeta (zeta ^ vk.Size - 1) w).2
        proof.ZShiftedOpening.ClaimedValue lp l r o s1 s2) :
    Verify p hash marshal bV sV proof vk w
      = openOutcome
          (bV [foldedHCommit p proof vk zeta,
               linearizedPolynomialDigest p proof vk gamma alpha zeta
                 proof.ZShiftedOpening.ClaimedValue l r o s1 s2
                 ((computePI p vk zeta (zeta ^ vk.Size - 1) w).2 * alpha * alpha),
               proof.LRO 0, proof.LRO 1, proof.LRO 2, vk.S 0, vk.S 1]
              proof.BatchedProof vk.KZGSRS)
          (sV proof.Z proof.ZShiftedOpening vk.KZGSRS) := by
  rw [Verify_unfold p hash marshal bV sV proof vk w gamma alpha zeta q lp l r o s1 s2
    rest hd hcv, if_pos hq]

/-- C4: the linearized-polynomial group digest computed by `Verify` (whose
third scalar is passed as lagrangeOne*alpha*alpha) equals the spec combination
l*Ql + r*Qr + (l*r)*Qm + o*Qo + Qk
 + [alpha*zu*(a+s1+gamma)*(b+s2+gamma)]*S[2]
 - [alpha*(a+zeta+gamma)*(b+shift0*zeta+gamma)*(c+shift1*zeta+gamma)]*Z
 + [alpha^2*L0(zeta)]*Z, all scalars acting through their canonical
unsigned-integer representatives. -/
theorem C4_linearized_digest (proof : Proof p G) (vk : VerifyingKey p G Srs)
    (gamma alpha zeta zu l r o s1 s2 lagrangeOne : ZMod p) :
    linearizedPolynomialDigest p proof vk gamma alpha zeta zu l r o s1 s2
        (lagrangeOne * alpha * alpha)
      = linearizedDigestSpec p proof vk gamma alpha zeta zu l r o s1 s2 lagrangeOne := by
  have e1 : (l + s1 + gamma) * (r + s2 + gamma) * zu * alpha
      = alpha * zu * (l + s1 + gamma) * (r + s2 + gamma) := by ring
  have e2 : (zeta * vk.Shifter 1 + o + gamma)
        * ((zeta * vk.Shifter 0 + r + gamma) * (l + zeta + gamma)) * alpha
      = alpha * (l + zeta + gamma) * (r + vk.Shifter 0 * zeta + gamma)
        * (o + vk.Shifter 1 * zeta + gamma) := by ring
  have e3 : lagrangeOne * alpha * alpha = alpha ^ 2 * lagrangeOne := by ring
  simp only [linearizedPolynomialDigest, linearizedDigestSpec, e1, e2, e3]
  abel

/-- C5: the folded quotient commitment computed by `Verify` is the
Horner-style fold of H2, H1, H0 with multiplier exactly zeta^(n+2):
`((H2 * zeta^(n+2)) + H1) * zeta^(n+2) + H0`. -/
theorem C5_foldedH_horner (proof : Proof p G) (vk : VerifyingKey p G Srs)
    (zeta : ZMod p) :
    foldedHCommit p proof vk zeta
      = hornerFold ((zeta ^ (vk.Size + 2)).val) [proof.H 2, proof.H 1, proof.H 0] := by
  simp [foldedHCommit, hornerFold]

/-- C6: for a witness of length at most n and zeta distinct from the domain
points g^i, i < len(w), the incremental Lagrange recurrence of `computePI`
produces the same value as the direct closed-form sum over the Lagrange basis
of the size-n domain. -/
theorem C6_pi_recurrence (vk : VerifyingKey p G Srs) (zeta : ZMod p)
    (w : List (ZMod p)) (_hlen : w.length ≤ vk.Size)
    (hinv : vk.SizeInv = ((vk.Size : ZMod p))⁻¹)
    (hz : ∀ i, i < w.length → zeta ≠ vk.Generator ^ i) :
    (computePI p vk zeta (zeta ^ vk.Size - 1) w).1 = PIdirect p vk zeta w := by
  have key := piFold_closed p vk.Generator zeta (vk.SizeInv * (zeta ^ vk.Size - 1)) w 0 0
    (by intro j hj; simpa using hz j hj)
  simp only [pow_zero, mul_one, zero_add] at key
  simp only [computePI]
  rw [frDiv_eq, show (zeta ^ vk.Size - 1) / (zeta - 1) * vk.SizeInv
      = vk.SizeInv * (zeta ^ vk.Size - 1) / (zeta - 1) from by ring]
  rw [key]
  simp only [PIdirect, lagrangeClosed]
  refine Finset.sum_congr rfl fun j _ => ?_
  rw [hinv]
  ring

/-- C9: `Verify` leaves both input structures unchanged; in the embedding of
the Go value semantics the post-call proof and verifying key returned by
`VerifyFull` are the inputs themselves. -/
theorem C9_inputs_unchanged (hash : List Nat → Nat) (marshal : G → List Nat)
    (bV : List G → BatchOpeningProof p G → Srs → Except E Unit)
    (sV : G → OpeningProof p G → Srs → Except E Unit)
    (proof : Proof p G) (vk : VerifyingKey p G Srs) (w : List (ZMod p)) :
    (VerifyFull p hash marshal bV sV proof vk w).2.1 = proof
      ∧ (VerifyFull p hash marshal bV sV proof vk w).2.2 = vk :=
  ⟨rfl, rfl⟩

/-- C10: `Verify` reads the claimed evaluations at the fixed indices 0-6 with
no length check; it panics (returns `none` in the embedding) exactly when the
claimed-values list has fewer than seven entries, and otherwise every read is
in bounds and an outcome is returned.  The wire and quotient commitment
triples are fixed-size arrays, so their index-0..2 reads are always in
bounds. -/
theorem C10_panic_iff_short (hash : List Nat → Nat) (marshal : G → List Nat)
    (bV : List G → BatchOpeningProof p G → Srs → Except E Unit)
    (sV : G → OpeningProof p G → Srs → Except E Unit)
    (proof : Proof p G) (vk : VerifyingKey p G Srs) (w : List (ZMod p)) :
    Verify p hash marshal bV sV proof vk w = none
      ↔ proof.BatchedProof.ClaimedValues.length < 7 := by
  have hd := deriveChallenges_eq p hash marshal proof
  rcases hcv : proof.BatchedProof.ClaimedValues with _ |
    ⟨q, _ | ⟨lp, _ | ⟨l, _ | ⟨r, _ | ⟨o, _ | ⟨s1, _ | ⟨s2, rest⟩⟩⟩⟩⟩⟩⟩
  · simp [Verify, hd, hcv]
  · simp [Verify, hd, hcv]
  · simp [Verify, hd, hcv]
  · simp [Verify, hd, hcv]
  · simp [Verify, hd, hcv]
  · simp [Verify, hd, hcv]
  · simp [Verify, hd, hcv]
  · rw [Verify_unfold p hash marshal bV sV proof vk w _ _ _ q lp l r o s1 s2 rest hd hcv]
    have hne : (if q = expectedQuotientCode p vk.Size
          (hash (gammaState p marshal proof) : ZMod p)
          (hash (alphaState p marshal proof) : ZMod p)
          (hash (zetaState p marshal proof) : ZMod p)
          (computePI p vk (hash (zetaState p marshal proof) : ZMod p)
            ((hash (zetaState p marshal proof) : ZMod p) ^ vk.Size - 1) w).1
          (computePI p vk (hash (zetaState p marshal proof) : ZMod p)
            ((hash (zetaState p marshal proof) : ZMod p) ^ vk.Size - 1) w).2
          proof.ZShiftedOpening.ClaimedValue lp l r o s1 s2
        then openOutcome
              (bV [foldedHCommit p proof vk (hash (zetaState p marshal proof) : ZMod p),
                   linearizedPolynomialDigest p proof vk
                     (hash (gammaState p marshal proof) : ZMod p)
                     (hash (alphaState p marshal proof) : ZMod p)
                     (hash (zetaState p marshal proof) : ZMod p)
                     proof.ZShiftedOpening.ClaimedValue l r o s1 s2
                     ((computePI p vk (hash (zetaState p marshal proof) : ZMod p)
                        ((hash (zetaState p marshal proof) : ZMod p) ^ vk.Size - 1) w).2
                       * (hash (alphaState p marshal proof) : ZMod p)
                       * (hash (alphaState p marshal proof) : ZMod p)),
                   proof.LRO 0, proof.LRO 1, proof.LRO 2, vk.S 0, vk.S 1]
                  proof.BatchedProof vk.KZGSRS)
              (sV proof.Z proof.ZShiftedOpening vk.KZGSRS)
        else some (.error .quotientMismatch)) ≠ none := by
      split
      · exact openOutcome_ne_none _ _
      · simp
    simp [hne, hcv]

/-- C3: the challenges are derived in the protocol-fixed chained order: gamma
from label "gamma" and the byte encodings of Comm(L), Comm(R), Comm(O); alpha
from label "alpha", gamma's accumulated state and Comm(Z); zeta from label
"zeta", alpha's accumulated state and Comm(H0), Comm(H1), Comm(H2); each
challenge is the canonical reduction of the hash digest modulo the field
order. -/
theorem C3_challenge_derivation (hash : List Nat → Nat) (marshal : G → List Nat)
    (proof : Proof p G) :
    deriveChallenges p hash marshal proof =
      .ok ((hash (gammaState p marshal proof) : ZMod p),
           (hash (alphaState p marshal proof) : ZMod p),
           (hash (zetaState p marshal proof) : ZMod p))
    ∧ ((hash (gammaState p marshal proof) : ZMod p)).val
        = hash (gammaState p marshal proof) % p
    ∧ ((hash (alphaState p marshal proof) : ZMod p)).val
        = hash (alphaState p marshal proof) % p
    ∧ ((hash (zetaState p marshal proof) : ZMod p)).val
        = hash (zetaState p marshal proof) % p := by
  refine ⟨rfl, ?_, ?_, ?_⟩ <;> exact ZMod.val_natCast _

/-- C2 counterexample data: under the constant-1 hash the derived zeta is the
domain point g^0 = 1, yet `Verify` silently returns the ordinary
quotient-mismatch verdict; no division-by-zero error exists in its outcome
type. -/
theorem C2_counterexample :
    deriveChallenges 5 cHash wMarshal wProofBad = .ok (1, 1, 1)
    ∧ (1 : ZMod 5) = wVK.Generator ^ 0
    ∧ Verify 5 cHash wMarshal okOracleB okOracleS wProofBad wVK [1]
        = some (.error .quotientMismatch) := by
  refine ⟨by decide, by decide, by decide⟩

theorem C1_witness :
    expectedQuotientCode 5 wVK.Size 3 3 3
        (computePI 5 wVK 3 (3 ^ wVK.Size - 1) [1, 2]).1
        (computePI 5 wVK 3 (3 ^ wVK.Size - 1) [1, 2]).2
        wProofBad.ZShiftedOpening.ClaimedValue 0 1 2 3 4 0
      = expectedQuotientSpec 5 wVK.Size 3 3 3
          (computePI 5 wVK 3 (3 ^ wVK.Size - 1) [1, 2]).1
          (computePI 5 wVK 3 (3 ^ wVK.Size - 1) [1, 2]).2
          wProofBad.ZShiftedOpening.ClaimedValue 0 1 2 3 4 0
    ∧ (Verify 5 wHash wMarshal okOracleB okOracleS wProofBad wVK [1, 2]
          = some (.error .quotientMismatch)
        ↔ (1 : ZMod 5) ≠ expectedQuotientSpec 5 wVK.Size 3 3 3
            (computePI 5 wVK 3 (3 ^ wVK.Size - 1) [1, 2]).1
            (computePI 5 wVK 3 (3 ^ wVK.Size - 1) [1, 2]).2
            wProofBad.ZShiftedOpening.ClaimedValue 0 1 2 3 4 0) :=
  C1_verify_quotient_check 5 wHash wMarshal okOracleB okOracleS wProofBad wVK [1, 2]
    3 3 3 1 0 1 2 3 4 0 [] (by decide) (by rfl)

theorem C2_witness :
    Verify 5 cHash wMarshal okOracleB okOracleS wProofBad wVK [1]
        = some (.error .quotientMismatch)
      ↔ (1 : ZMod 5) ≠ 0 :=
  C2_domain_collision_silent 5 cHash wMarshal okOracleB okOracleS wProofBad wVK [1]
    1 1 1 1 0 1 2 3 4 0 [] (by decide) (by rfl) (by decide)

theorem C3_witness :
    deriveChallenges 5 wHash wMarshal wProofBad =
      .ok ((wHash (gammaState 5 wMarshal wProofBad) : ZMod 5),
           (wHash (alphaState 5 wMarshal wProofBad) : ZMod 5),
           (wHash (zetaState 5 wMarshal wProofBad) : ZMod 5))
    ∧ ((wHash (gammaState 5 wMarshal wProofBad) : ZMod 5)).val
        = wHash (gammaState 5 wMarshal wProofBad) % 5
    ∧ ((wHash (alphaState 5 wMarshal wProofBad) : ZMod 5)).val
        = wHash (alphaState 5 wMarshal wProofBad) % 5
    ∧ ((wHash (zetaState 5 wMarshal wProofBad) : ZMod 5)).val
        = wHash (zetaState 5 wMarshal wProofBad) % 5 :=
  C3_challenge_derivation 5 wHash wMarshal wProofBad

theorem C4_witness :
    linearizedPolynomialDigest 5 wProofOk wVK 3 3 3 2 1 2 3 4 0 (2 * 3 * 3)
      = linearizedDigestSpec 5 wProofOk wVK 3 3 3 2 1 2 3 4 0 2 :=
  C4_linearized_digest 5 wProofOk wVK 3 3 3 2 1 2 3 4 0 2

theorem C5_witness :
    foldedHCommit 5 wProofOk wVK 3
      = hornerFold (((3 : ZMod 5) ^ (wVK.Size + 2)).val)
          [wProofOk.H 2, wProofOk.H 1, wProofOk.H 0] :=
  C5_foldedH_horner 5 wProofOk wVK 3

theorem C6_witness :
    (computePI 5 wVK 3 (3 ^ wVK.Size - 1) [1, 2]).1 = PIdirect 5 wVK 3 [1, 2] :=
  C6_pi_recurrence 5 wVK 3 [1, 2] (by decide)
    ((inv_eq_of_mul_eq_one_right (by decide)).symm) (by decide)

theorem C7_witness :
    (Verify 5 wHash wMarshal okOracleB okOracleS wProofOk wVK [1, 2] = some (.ok ())
      ↔ (4 : ZMod 5) = expectedQuotientCode 5 wVK.Size 3 3 3
              (computePI 5 wVK 3 (3 ^ wVK.Size - 1) [1, 2]).1
              (computePI 5 wVK 3 (3 ^ wVK.Size - 1) [1, 2]).2
              wProofOk.ZShiftedOpening.ClaimedValue 0 1 2 3 4 0
          ∧ okOracleB [foldedHCommit 5 wProofOk wVK 3,
                linearizedPolynomialDigest 5 wProofOk wVK 3 3 3
                  wProofOk.ZShiftedOpening.ClaimedValue 1 2 3 4 0
                  ((computePI 5 wVK 3 (3 ^ wVK.Size - 1) [1, 2]).2 * 3 * 3),
                wProofOk.LRO 0, wProofOk.LRO 1, wProofOk.LRO 2, wVK.S 0, wVK.S 1]
               wProofOk.BatchedProof wVK.KZGSRS = .ok ()
          ∧ okOracleS wProofOk.Z wProofOk.ZShiftedOpening wVK.KZGSRS = .ok ())
    ∧ ((4 : ZMod 5) ≠ expectedQuotientCode 5 wVK.Size 3 3 3
            (computePI 5 wVK 3 (3 ^ wVK.Size - 1) [1, 2]).1
            (computePI 5 wVK 3 (3 ^ wVK.Size - 1) [1, 2]).2
            wProofOk.ZShiftedOpening.ClaimedValue 0 1 2 3 4 0
        → Verify 5 wHash wMarshal okOracleB okOracleS wProofOk wVK [1, 2]
            = some (.error .quotientMismatch))
    ∧ (∀ e, (4 : ZMod 5) = expectedQuotientCode 5 wVK.Size 3 3 3
              (computePI 5 wVK 3 (3 ^ wVK.Size - 1) [1, 2]).1
              (computePI 5 wVK 3 (3 ^ wVK.Size - 1) [1, 2]).2
              wProofOk.ZShiftedOpening.ClaimedValue 0 1 2 3 4 0
        → okOracleB [foldedHCommit 5 wProofOk wVK 3,
              linearizedPolynomialDigest 5 wProofOk wVK 3 3 3
                wProofOk.ZShiftedOpening.ClaimedValue 1 2 3 4 0
                ((computePI 5 wVK 3 (3 ^ wVK.Size - 1) [1, 2]).2 * 3 * 3),
              wProofOk.LRO 0, wProofOk.LRO 1, wProofOk.LRO 2, wVK.S 0, wVK.S 1]
             wProofOk.BatchedProof wVK.KZGSRS = .error e
        → Verify 5 wHash wMarshal okOracleB okOracleS wProofOk wVK [1, 2]
            = some (.error (.opening e)))
    ∧ (∀ e, (4 : ZMod 5) = expectedQuotientCode 5 wVK.Size 3 3 3
              (computePI 5 wVK 3 (3 ^ wVK.Size - 1) [1, 2]).1
              (computePI 5 wVK 3 (3 ^ wVK.Size - 1) [1, 2]).2
              wProofOk.ZShiftedOpening.ClaimedValue 0 1 2 3 4 0
        → okOracleB [foldedHCommit 5 wProofOk wVK 3,
              linearizedPolynomialDigest 5 wProofOk wVK 3 3 3
                wProofOk.ZShiftedOpening.ClaimedValue 1 2 3 4 0
                ((computePI 5 wVK 3 (3 ^ wVK.Size - 1) [1, 2]).2 * 3 * 3),
              wProofOk.LRO 0, wProofOk.LRO 1, wProofOk.LRO 2, wVK.S 0, wVK.S 1]
             wProofOk.BatchedProof wVK.KZGSRS = .ok ()
        → okOracleS wProofOk.Z wProofOk.ZShiftedOpening wVK.KZGSRS = .error e
        → Verify 5 wHash wMarshal okOracleB okOracleS wProofOk wVK [1, 2]
            = some (.error (.opening e))) :=
  C7_stage_outcomes 5 wHash wMarshal okOracleB okOracleS wProofOk wVK [1, 2]
    3 3 3 4 0 1 2 3 4 0 [] (by decide) (by rfl)

theorem C8_witness :
    Verify 5 wHash wMarshal okOracleB okOracleS wProofOk wVK [1, 2]
      = openOutcome
          (okOracleB [foldedHCommit 5 wProofOk wVK 3,
               linearizedPolynomialDigest 5 wProofOk wVK 3 3 3
                 wProofOk.ZShiftedOpening.ClaimedValue 1 2 3 4 0
                 ((computePI 5 wVK 3 (3 ^ wVK.Size - 1) [1, 2]).2 * 3 * 3),
               wProofOk.LRO 0, wProofOk.LRO 1, wProofOk.LRO 2, wVK.S 0, wVK.S 1]
              wProofOk.BatchedProof wVK.KZGSRS)
          (okOracleS wProofOk.Z wProofOk.ZShiftedOpening wVK.KZGSRS) :=
  C8_opening_calls 5 wHash wMarshal okOracleB okOracleS wProofOk wVK [1, 2]
    3 3 3 4 0 1 2 3 4 0 [] (by decide) (by rfl) (by decide)

theorem C9_witness :
    (VerifyFull 5 wHash wMarshal okOracleB okOracleS wProofOk wVK []).2.1 = wProofOk
    ∧ (VerifyFull 5 wHash wMarshal okOracleB okOracleS wProofOk wVK []).2.2 = wVK :=
  C9_inputs_unchanged 5 wHash wMarshal okOracleB okOracleS wProofOk wVK []

theorem C10_witness :
    Verify 5 wHash wMarshal okOracleB okOracleS wProofShort wVK [] = none
      ↔ wProofShort.BatchedProof.ClaimedValues.length < 7 :=
  C10_panic_iff_short 5 wHash wMarshal okOracleB okOracleS wProofShort wVK []

end Plonk

